import Mathlib

/-!
Shallow embedding of the bugtracker backend (src/database.js and the
middleware/schema modules) for checking the specification claims.

Conventions of the embedding:
* JavaScript runtime values that flow into the query builder are modelled
  by `JsVal` (integer-valued numbers, strings, undefined).
* MongoDB documents are schemaless, so a document is an insertion-ordered
  association list `Doc` of field name to `Val`.
* Dates are modelled as integers counting days, with a day boundary at
  midnight: `today` is the integer day number after `setHours(0,0,0,0)`,
  and `d.setDate(d.getDate() - n)` subtracts `n` from the day number.
* Fallible JS code (`throw`) is modelled with `Except String`.
* The database is passed explicitly as a `List Doc` (the `Users`
  collection); an operation that would mutate the store returns the new
  store.
-/

/-- A JavaScript value as it reaches the query-building code: an
integer-valued number, a string, or undefined. -/
inductive JsVal where
  | num (n : Int)
  | str (s : String)
  | undef
deriving DecidableEq, Repr

/-- typeof v === "number" from src/database.js lines 95 and 101. -/
def JsVal.isNumber : JsVal → Bool
  | .num _ => true
  | _ => false

/-- A BSON field value: string, integer number, or an ObjectId carrying
its 24-character hex representation. -/
inductive Val where
  | str (s : String)
  | num (n : Int)
  | oid (s : String)
deriving DecidableEq, Repr

/-- A schemaless document: an insertion-ordered association list of
field name to value, as a JS object literal builds it. -/
abbrev Doc := List (String × Val)

/-- First-match field lookup in a document. -/
def lookupField (d : Doc) (k : String) : Option Val :=
  match d with
  | [] => none
  | kv :: rest => if kv.1 = k then some kv.2 else lookupField rest k

/-- Accumulate the value of a leading run of decimal digits, `none`
when the run is empty. -/
def digitsVal (cs : List Char) : Option Nat :=
  let ds := cs.takeWhile Char.isDigit
  if ds.isEmpty then none
  else some (ds.foldl (fun acc c => 10 * acc + (c.toNat - 48)) 0)

/-- The characters the ECMA TrimString step of parseInt removes:
space, tab, line feed, carriage return, vertical tab, form feed,
no-break space, BOM, and the line and paragraph separators. -/
def jsWhitespace (c : Char) : Bool :=
  c = ' ' || c = '\t' || c = '\n' || c = '\r' || c = '\x0b' || c = '\x0c' ||
  c = '\xa0' || c = '\uFEFF' || c = '\u2028' || c = '\u2029'

/-- The numeric value of one hexadecimal digit. -/
def hexCharVal (c : Char) : Nat :=
  if c.isDigit then c.toNat - 48
  else if 'a' ≤ c && c ≤ 'f' then c.toNat - 87
  else c.toNat - 55

/-- Accumulate the value of a leading run of hexadecimal digits,
`none` when the run is empty. -/
def hexDigitsVal (cs : List Char) : Option Nat :=
  let ds := cs.takeWhile (fun c =>
    c.isDigit || ('a' ≤ c && c ≤ 'f') || ('A' ≤ c && c ≤ 'F'))
  if ds.isEmpty then none
  else some (ds.foldl (fun acc c => 16 * acc + hexCharVal c) 0)

/-- The magnitude parseInt reads after the optional sign: a 0x or 0X
prefix switches to radix 16 (NaN when no hex digit follows the
prefix), otherwise a leading run of decimal digits. -/
def magnitudeVal (cs : List Char) : Option Nat :=
  match cs with
  | '0' :: 'x' :: rest => hexDigitsVal rest
  | '0' :: 'X' :: rest => hexDigitsVal rest
  | _ => digitsVal cs

/-- JavaScript parseInt on a string with the radix argument omitted:
trim leading whitespace, read an optional sign, then either a
radix-16 magnitude after a 0x/0X prefix or a leading run of decimal
digits; `none` models NaN (no digits found). -/
def parseIntStr (s : String) : Option Int :=
  let cs := s.data.dropWhile jsWhitespace
  match cs with
  | '-' :: rest => (magnitudeVal rest).map (fun n => -(n : Int))
  | '+' :: rest => (magnitudeVal rest).map (fun n => (n : Int))
  | _ => (magnitudeVal cs).map (fun n => (n : Int))

/-- JavaScript parseInt applied to a `JsVal`: a number is stringified
and reparsed (the identity on integer-valued numbers), a string is
parsed, undefined parses to NaN (`none`). -/
def jsParseInt : JsVal → Option Int
  | .num n => some n
  | .str s => parseIntStr s
  | .undef => none

/-- The `parseInt(x) || d` idiom from src/database.js lines 112-113:
NaN and 0 are falsy and fall back to `d`; any other parsed integer,
including a negative one, is kept. -/
def orFallback (x : Option Int) (d : Int) : Int :=
  match x with
  | none => d
  | some n => if n = 0 then d else n

/-- An argument with an ES6 default: `undefined` picks the default from
the destructuring pattern of GetAllUsers. -/
def defaulted (v d : JsVal) : JsVal :=
  match v with
  | .undef => d
  | _ => v

/-- parseInt result for the pageNumber argument (default 1). -/
def pageNumberParsed (v : JsVal) : Option Int :=
  jsParseInt (defaulted v (.num 1))

/-- parseInt result for the pageSize argument (default 5). -/
def pageSizeParsed (v : JsVal) : Option Int :=
  jsParseInt (defaulted v (.num 5))

/-- Effective page number: `pageNumber = parseInt(pageNumber) || 1`. -/
def effPageNumber (v : JsVal) : Int :=
  orFallback (pageNumberParsed v) 1

/-- Effective page size: `pageSize = parseInt(pageSize) || 5`. -/
def effPageSize (v : JsVal) : Int :=
  orFallback (pageSizeParsed v) 5

/-- The createdOn window assembled by GetAllUsers (src/database.js lines
89-109): an optional `lte` upper bound and an optional `gte` lower
bound on the creation day. -/
structure CreatedOnFilter where
  lte : Option Int
  gte : Option Int
deriving DecidableEq, Repr

/-- Filter assembly from src/database.js lines 93-105: a number
`minAge > 0` sets the upper bound `today - minAge`, a number
`maxAge > 0` sets the lower bound `today - maxAge`; every non-number
input, and every number not greater than 0, leaves its bound unset. -/
def buildCreatedOnFilter (today : Int) (minAge maxAge : JsVal) : CreatedOnFilter :=
  { lte :=
      match minAge with
      | .num n => if 0 < n then some (today - n) else none
      | _ => none
    gte :=
      match maxAge with
      | .num n => if 0 < n then some (today - n) else none
      | _ => none }

/-- getSortOptions from src/database.js lines 680-740, translated case
by case; the returned JS object is modelled as the insertion-ordered
list of (field, direction) pairs it accumulates. -/
def getSortOptions (sortBy : JsVal) (type : String) : List (String × Int) :=
  if type = "user" then
    if sortBy = .str "givenName" then [("givenName", 1), ("familyName", 1), ("createdOn", 1)]
    else if sortBy = .str "familyName" then [("familyName", 1), ("givenName", 1), ("createdOn", 1)]
    else if sortBy = .str "role" then [("role", 1), ("givenName", 1), ("familyName", 1), ("createdOn", 1)]
    else if sortBy = .str "newest" then [("createdOn", -1)]
    else if sortBy = .str "oldest" then [("createdOn", 1)]
    else [("givenName", 1)]
  else if type = "bug" then
    if sortBy = .str "title" then [("title", 1), ("createdOn", -1)]
    else if sortBy = .str "classification" then [("classification", 1), ("createdOn", -1)]
    else if sortBy = .str "assignedToName" then [("assignedToName", 1), ("createdOn", -1)]
    else if sortBy = .str "createdByName" then [("createdByName", 1), ("createdOn", -1)]
    else if sortBy = .str "newest" then [("createdOn", -1)]
    else if sortBy = .str "oldest" then [("createdOn", 1)]
    else [("createdOn", -1)]
  else []

/-- Math.ceil(a / b) on integers for a nonzero divisor, by cases on the
sign of the divisor; division by zero is unreachable in GetAllUsers
because the page size fallback never yields 0. -/
def intCeilDiv (a b : Int) : Int :=
  if 0 < b then (a + b - 1) / b else a / b

/-- A hexadecimal digit, either case. -/
def isHexDigitChar (c : Char) : Bool :=
  c.isDigit || ('a' ≤ c && c ≤ 'f') || ('A' ≤ c && c ≤ 'F')

/-- Modelled from the spec: `ObjectId.isValid` on a string comes from
the mongodb driver, an external collaborator not in this repository;
the spec describes a valid identifier string as fixed length (24) and
hex-encoded, so validity is being 24 hexadecimal characters. -/
def isValidObjectIdString (s : String) : Bool :=
  s.length = 24 && s.data.all isHexDigitChar

/-- JS truthiness of the `JsVal` inputs `newId` can see: undefined, the
number 0 and the empty string are falsy. -/
def JsVal.truthy : JsVal → Bool
  | .num n => n != 0
  | .str s => s ≠ ""
  | .undef => false

/-- newId from src/database.js lines 10-16: reject a falsy value, a
non-string, or a string that is not a valid identifier; otherwise wrap
the string as an ObjectId. -/
def newId (v : JsVal) : Except String Val :=
  if !v.truthy then .error "Invalid ObjectId string"
  else
    match v with
    | .str s =>
        if isValidObjectIdString s then .ok (.oid s)
        else .error "Invalid ObjectId string"
    | _ => .error "Invalid ObjectId string"

/-- Projection `{ password: 0 }` used by GetUserById: drop every
password field from the document. -/
def projectNoPassword (d : Doc) : Doc :=
  d.filter (fun kv => kv.1 ≠ "password")

/-- GetUserById from src/database.js lines 150-171: reject a malformed
identifier before touching the store; otherwise findOne on `_id` with
the password field projected away, null (`none`) when absent. -/
def GetUserById (id : String) (store : List Doc) : Except String (Option Doc) :=
  if !isValidObjectIdString id then .error "Invalid ObjectId format"
  else
    .ok ((store.find? (fun d => lookupField d "_id" = some (.oid id))).map projectNoPassword)

/-- ASCII lowercasing of one character, as toLowerCase acts on the
ASCII range. -/
def toLowerChar (c : Char) : Char :=
  if 'A' ≤ c && c ≤ 'Z' then Char.ofNat (c.toNat + 32) else c

/-- JS String.prototype.trim: drop the whitespace at both ends. -/
def jsTrim (s : String) : String :=
  ⟨((s.data.dropWhile (· = ' ')).reverse.dropWhile (· = ' ')).reverse⟩

/-- JS String.prototype.toLowerCase on ASCII text. -/
def jsToLower (s : String) : String :=
  ⟨s.data.map toLowerChar⟩

/-- Email normalization from src/database.js line 178:
email.trim().toLowerCase(). -/
def cleanEmail (email : String) : String :=
  jsToLower (jsTrim email)

/-- GetUserByEmail from src/database.js lines 174-185: findOne on the
trimmed, lowercased email. -/
def GetUserByEmail (email : String) (store : List Doc) : Except String (Option Doc) :=
  .ok (store.find? (fun d => lookupField d "email" = some (.str (cleanEmail email))))

/-- RegisterUser from src/database.js lines 188-213, translated as the
source stands: the duplicate check findOne uses the raw (unnormalized)
email; when no duplicate exists the function builds the stamped newUser
object but performs no insert and then returns the undeclared name
`resourceLimits`, so the evaluation throws a ReferenceError, which the
catch block rewraps; on success the function would return the new
store, but no path reaches a success. -/
def RegisterUser (store : List Doc) (user : Doc) : Except String (List Doc) :=
  if (store.find? (fun d => lookupField d "email" = lookupField user "email")).isSome then
    .error "Failed to register user: User with this email already exists"
  else
    .error "Failed to register user: resourceLimits is not defined"

/-- Write one field of a document, replacing an existing entry in place
or appending a new one, as a MongoDB $set does per field. -/
def setField (d : Doc) (k : String) (v : Val) : Doc :=
  if d.any (fun kv => kv.1 = k) then
    d.map (fun kv => if kv.1 = k then (k, v) else kv)
  else d ++ [(k, v)]

/-- Apply a $set update document field by field. -/
def applySet (d : Doc) (update : Doc) : Doc :=
  update.foldl (fun acc kv => setField acc kv.1 kv.2) d

/-- The rest destructuring `const { _id, ...updateFields } = updatedUser`
from src/database.js line 233: every _id entry is removed from the
update payload. -/
def updateFieldsOf (updatedUser : Doc) : Doc :=
  updatedUser.filter (fun kv => kv.1 ≠ "_id")

/-- updateOne semantics: rewrite the first document matching the
predicate, leave the rest untouched. -/
def updateFirst (store : List Doc) (p : Doc → Bool) (f : Doc → Doc) : List Doc :=
  match store with
  | [] => []
  | d :: rest => if p d then f d :: rest else d :: updateFirst rest p f

/-- UpdateUser from src/database.js lines 229-250: split _id away from
the update payload, reject a malformed or missing _id, otherwise
updateOne with $set of the remaining fields; returns the resulting
store. -/
def UpdateUser (store : List Doc) (updatedUser : Doc) : Except String (List Doc) :=
  let updateFields := updateFieldsOf updatedUser
  match lookupField updatedUser "_id" with
  | some (.str s) =>
      if isValidObjectIdString s then
        .ok (updateFirst store (fun d => lookupField d "_id" = some (.oid s))
              (fun d => applySet d updateFields))
      else .error "Failed to update user: Invalid ObjectId format"
  | _ => .error "Failed to update user: Invalid ObjectId format"

/-- The $skip and $limit stages of the GetAllUsers pipeline over the
sorted matching set; MongoDB rejects a negative skip and a nonpositive
limit. -/
def runSkipLimit (matched : List Doc) (skip limit : Int) : Except String (List Doc) :=
  if skip < 0 then .error "invalid skip value"
  else if limit ≤ 0 then .error "invalid limit value"
  else .ok ((matched.drop skip.toNat).take limit.toNat)

/-- The value GetAllUsers returns (src/database.js lines 136-142). -/
structure GetAllUsersResult where
  users : List Doc
  totalUsers : Nat
  totalPages : Int
  pageNumber : Int
  pageSize : Int
deriving DecidableEq, Repr

/-- The pagination tail of GetAllUsers (src/database.js lines 111-142)
over `matched`, the matching set in sort order: parse-with-fallback of
the page arguments, skip/limit of the pipeline, count of the
unpaginated matching set, and totalPages = Math.ceil(totalUsers /
pageSize). -/
def getAllUsersOn (matched : List Doc) (pageSizeArg pageNumberArg : JsVal) :
    Except String GetAllUsersResult :=
  let pageNumber := effPageNumber pageNumberArg
  let pageSize := effPageSize pageSizeArg
  let skip := (pageNumber - 1) * pageSize
  let limit := pageSize
  (runSkipLimit matched skip limit).map (fun users =>
    let totalUsers := matched.length
    { users := users
      totalUsers := totalUsers
      totalPages := intCeilDiv totalUsers pageSize
      pageNumber := pageNumber
      pageSize := pageSize })

/-- One entry of the structured error list the validation middleware
returns: message, path (Joi reports a path as an array of keys), type. -/
structure JoiError where
  message : String
  path : List String
  type : String
deriving DecidableEq, Repr

/-- One field of a validation schema, as the user schemas in the schema
module declare them: a field name, whether the field is required, an
optional default applied on success, and a per-field value check. -/
structure FieldSpec where
  fname : String
  required : Bool
  fdefault : Option Val
  check : Val → Bool

/-- A schema is its list of field specifications. -/
abbrev Schema := List FieldSpec

/-- Modelled from the spec: the `stripUnknown: true` behavior of
`schema.validate` (Joi is an external library): fields not declared in
the schema are removed from the body. -/
def stripUnknown (schema : Schema) (body : Doc) : Doc :=
  body.filter (fun kv => schema.any (fun f => f.fname = kv.1))

/-- The violation one schema field raises against the stripped body, if
any: a required field that is absent, or a present value failing the
field check. -/
def fieldViolation (stripped : Doc) (f : FieldSpec) : Option JoiError :=
  match lookupField stripped f.fname with
  | none =>
      if f.required then
        some { message := f.fname ++ " is required", path := [f.fname], type := "any.required" }
      else none
  | some v =>
      if f.check v then none
      else some { message := f.fname ++ " is invalid", path := [f.fname], type := "any.invalid" }

/-- Modelled from the spec: with `abortEarly: false`, validation
collects one entry for every violation, in schema order, not just the
first. -/
def joiErrors (schema : Schema) (stripped : Doc) : List JoiError :=
  schema.filterMap (fieldViolation stripped)

/-- Modelled from the spec: defaults of absent optional fields are
filled into the sanitized value on success. -/
def applyDefaults (schema : Schema) (d : Doc) : Doc :=
  d ++ schema.filterMap (fun f =>
    match lookupField d f.fname, f.fdefault with
    | none, some v => some (f.fname, v)
    | _, _ => none)

/-- Modelled from the spec: `schema.validate(body, { abortEarly: false,
stripUnknown: true })` — strip unknown fields, collect every violation,
and on success return the sanitized, defaulted value. -/
def joiValidate (schema : Schema) (body : Doc) : Except (List JoiError) Doc :=
  let stripped := stripUnknown schema body
  let errors := joiErrors schema stripped
  if errors.isEmpty then .ok (applyDefaults schema stripped)
  else .error errors

/-- What the validBody middleware does with a request: answer 400 with
the error list, or pass the (replaced) body on to the route handler. -/
inductive MwResult where
  | respond400 (errors : List JoiError)
  | next (newBody : Doc)
deriving Repr

/-- validBody from the middleware module: validate the body against the
schema; on error, status 400 with `errors` mapped to
(message, path, type) entries; on success, overwrite req.body with the
validated value and call next. -/
def validBody (schema : Schema) (body : Doc) : MwResult :=
  match joiValidate schema body with
  | .error errs =>
      .respond400 (errs.map (fun e =>
        { message := e.message, path := e.path, type := e.type }))
  | .ok value => .next value

/-- A one-field schema requiring an email, as the login and
registration schemas do; used to exercise the validation middleware on
concrete input. -/
def emailOnlySchema : Schema :=
  [{ fname := "email", required := true, fdefault := none, check := fun _ => true }]

/-- A one-field schema requiring an email whose value must be the
string a@b.c; used to exercise the middleware on a present but invalid
value. -/
def emailCheckedSchema : Schema :=
  [{ fname := "email", required := true, fdefault := none,
     check := fun v => v = Val.str "a@b.c" }]

/-- The error entry a missing required field produces. -/
def requiredError (name : String) : JoiError :=
  { message := name ++ " is required", path := [name], type := "any.required" }

/-- The error entry a present value failing its field check produces. -/
def invalidError (name : String) : JoiError :=
  { message := name ++ " is invalid", path := [name], type := "any.invalid" }

/-! Helper lemmas about the embedding. -/

theorem intCeilDiv_nat_five (n : Nat) : intCeilDiv (n : Int) 5 = ((n + 4) / 5 : Nat) := by
  simp only [intCeilDiv]
  norm_num
  omega

theorem lookupField_map_set_ne (d : Doc) (k k' : String) (v : Val) (h : k' ≠ k) :
    lookupField (d.map (fun kv => if kv.1 = k then (k, v) else kv)) k' = lookupField d k' := by
  have hkk : ¬(k = k') := fun e => h e.symm
  induction d with
  | nil => rfl
  | cons kv rest ih =>
      by_cases hk : kv.1 = k
      · simp [List.map_cons, hk, lookupField, hkk, ih]
      · simp only [List.map_cons, hk, if_false, lookupField]
        by_cases hk' : kv.1 = k'
        · simp [hk']
        · simp [hk', ih]

theorem lookupField_append_ne (d : Doc) (k k' : String) (v : Val) (h : k' ≠ k) :
    lookupField (d ++ [(k, v)]) k' = lookupField d k' := by
  induction d with
  | nil =>
      simp only [List.nil_append, lookupField]
      rw [if_neg (by exact fun hkk => h hkk.symm)]
  | cons kv rest ih =>
      simp only [List.cons_append, lookupField]
      by_cases hk' : kv.1 = k'
      · rw [if_pos hk', if_pos hk']
      · rw [if_neg hk', if_neg hk']
        exact ih

theorem lookupField_setField_ne (d : Doc) (k k' : String) (v : Val) (h : k' ≠ k) :
    lookupField (setField d k v) k' = lookupField d k' := by
  unfold setField
  by_cases ha : d.any (fun kv => kv.1 = k)
  · rw [if_pos ha]
    exact lookupField_map_set_ne d k k' v h
  · rw [if_neg ha]
    exact lookupField_append_ne d k k' v h

theorem lookupField_applySet_not_mem (u : Doc) (k : String)
    (h : ∀ kv ∈ u, kv.1 ≠ k) :
    ∀ d : Doc, lookupField (applySet d u) k = lookupField d k := by
  induction u with
  | nil => intro d; rfl
  | cons kv rest ih =>
      intro d
      have hk : kv.1 ≠ k := h kv (List.mem_cons_self _ _)
      have hrest : ∀ kv ∈ rest, kv.1 ≠ k := fun x hx => h x (List.mem_cons_of_mem _ hx)
      show lookupField (applySet (setField d kv.1 kv.2) rest) k = lookupField d k
      rw [ih hrest]
      exact lookupField_setField_ne d kv.1 k kv.2 (fun hkk => hk hkk.symm)

theorem updateFirst_map_eq (p : Doc → Bool) (f : Doc → Doc) (g : Doc → Option Val)
    (hf : ∀ d, g (f d) = g d) :
    ∀ store : List Doc, (updateFirst store p f).map g = store.map g := by
  intro store
  induction store with
  | nil => rfl
  | cons d rest ih =>
      unfold updateFirst
      by_cases hp : p d
      · rw [if_pos hp]
        simp only [List.map_cons, hf d]
      · rw [if_neg hp]
        simp only [List.map_cons, ih]

theorem lookupField_filter_of_none (d : Doc) (p : String × Val → Bool) (k : String)
    (h : lookupField d k = none) : lookupField (d.filter p) k = none := by
  induction d with
  | nil => rfl
  | cons kv rest ih =>
      unfold lookupField at h
      by_cases hk : kv.1 = k
      · rw [if_pos hk] at h
        exact absurd h (by simp)
      · rw [if_neg hk] at h
        by_cases hp : p kv
        · simp only [List.filter_cons, hp, if_true]
          unfold lookupField
          rw [if_neg hk]
          exact ih h
        · simp only [List.filter_cons, hp]
          simp only [Bool.false_eq_true, if_false]
          exact ih h

theorem lookupField_project_password (d : Doc) :
    lookupField (projectNoPassword d) "password" = none := by
  induction d with
  | nil => rfl
  | cons kv rest ih =>
      unfold projectNoPassword at ih ⊢
      by_cases hk : kv.1 = "password"
      · simp only [List.filter_cons, hk]
        simpa using ih
      · simp only [List.filter_cons]
        rw [if_pos (by simpa using hk)]
        unfold lookupField
        rw [if_neg hk]
        exact ih

/-! Claim theorems. -/

/-- C2: in GetAllUsers, a number minAge > 0 constrains createdOn with
the upper bound today-at-midnight minus minAge days, a number
maxAge > 0 constrains it with the lower bound today-at-midnight minus
maxAge days, and each bound is applied independently of the other
argument. -/
theorem C2_createdOn_window (today n m : Int) (minAge maxAge : JsVal)
    (hn : 0 < n) (hm : 0 < m) :
    (buildCreatedOnFilter today (.num n) maxAge).lte = some (today - n) ∧
    (buildCreatedOnFilter today minAge (.num m)).gte = some (today - m) := by
  constructor
  · simp [buildCreatedOnFilter, hn]
  · simp [buildCreatedOnFilter, hm]

/-- Witness for C2 at today = 100, minAge = 7, maxAge = 30, with the
other age argument absent. -/
theorem C2_createdOn_window_witness :
    (buildCreatedOnFilter 100 (.num 7) .undef).lte = some (100 - 7) ∧
    (buildCreatedOnFilter 100 .undef (.num 30)).gte = some (100 - 30) :=
  ⟨(C2_createdOn_window 100 7 30 .undef .undef (by decide) (by decide)).1,
   (C2_createdOn_window 100 7 30 .undef .undef (by decide) (by decide)).2⟩

/-- C3: getSortOptions returns exactly createdOn descending for
(newest, bug); exactly title ascending then createdOn descending for
(title, bug); and exactly givenName ascending for any keyword outside
the user table. -/
theorem C3_getSortOptions_table :
    getSortOptions (.str "newest") "bug" = [("createdOn", -1)] ∧
    getSortOptions (.str "title") "bug" = [("title", 1), ("createdOn", -1)] ∧
    ∀ s : String,
      s ∉ (["givenName", "familyName", "role", "newest", "oldest"] : List String) →
      getSortOptions (.str s) "user" = [("givenName", 1)] := by
  refine ⟨rfl, rfl, ?_⟩
  intro s hs
  simp only [List.mem_cons, List.not_mem_nil, or_false, not_or] at hs
  obtain ⟨h1, h2, h3, h4, h5⟩ := hs
  simp [getSortOptions, h1, h2, h3, h4, h5]

/-- Witness for C3 at the unrecognized keyword "zzz". -/
theorem C3_getSortOptions_table_witness :
    getSortOptions (.str "zzz") "user" = [("givenName", 1)] :=
  C3_getSortOptions_table.2.2 "zzz" (by decide)

/-- C10: the createdOn bounds react only to number-typed minAge/maxAge:
any non-number input, including the numeric string "5", leaves the
corresponding bound unset, while the same string "5" is parsed to 5 by
the pageNumber/pageSize handling. -/
theorem C10_age_filter_number_typed (today : Int) (v w : JsVal)
    (hv : v.isNumber = false) (hw : w.isNumber = false) :
    (buildCreatedOnFilter today v w).lte = none ∧
    (buildCreatedOnFilter today v w).gte = none ∧
    buildCreatedOnFilter today (.str "5") (.str "5") = CreatedOnFilter.mk none none ∧
    effPageNumber (.str "5") = 5 ∧ effPageSize (.str "5") = 5 := by
  refine ⟨?_, ?_, rfl, by decide, by decide⟩
  · cases v <;> simp_all [buildCreatedOnFilter, JsVal.isNumber]
  · cases w <;> simp_all [buildCreatedOnFilter, JsVal.isNumber]

/-- Witness for C10 at the string "5" and undefined. -/
theorem C10_age_filter_number_typed_witness :
    (buildCreatedOnFilter 100 (.str "5") .undef).lte = none ∧
    (buildCreatedOnFilter 100 (.str "5") .undef).gte = none :=
  ⟨(C10_age_filter_number_typed 100 (.str "5") .undef (by decide) (by decide)).1,
   (C10_age_filter_number_typed 100 (.str "5") .undef (by decide) (by decide)).2.1⟩

/-- C1 (code bug): RegisterUser never persists the user. On an empty
Users collection and a valid input, the duplicate check passes, but the
function builds the stamped document without inserting it and then
evaluates the undeclared name resourceLimits, so the call throws and a
subsequent GetUserByEmail on the store still finds nothing. -/
theorem C1_register_never_persists :
    RegisterUser []
      [("email", .str "ann@example.com"), ("password", .str "secret1"),
       ("givenName", .str "Ann"), ("familyName", .str "Lee")]
      = .error "Failed to register user: resourceLimits is not defined" ∧
    cleanEmail " Ann@Example.com " = "ann@example.com" ∧
    GetUserByEmail " Ann@Example.com " [] = .ok none := by
  refine ⟨rfl, by decide, rfl⟩

/-- C7: newId yields an identifier for every 24-character hex string
and fails with the invalid-identifier error for every other string. -/
theorem C7_newId_hex (s : String) :
    (s.length = 24 → s.data.all isHexDigitChar = true → newId (.str s) = .ok (.oid s)) ∧
    (¬(s.length = 24 ∧ s.data.all isHexDigitChar = true) →
      newId (.str s) = .error "Invalid ObjectId string") := by
  constructor
  · intro hlen hhex
    have hne : s ≠ "" := by
      intro he
      rw [he] at hlen
      exact absurd hlen (by decide)
    have hvalid : isValidObjectIdString s = true := by
      simp [isValidObjectIdString, hlen, hhex]
    simp [newId, JsVal.truthy, hne, hvalid]
  · intro hnot
    by_cases hne : s = ""
    · rw [hne]; rfl
    · have hvalid : isValidObjectIdString s = false := by
        by_contra hv
        rw [Bool.not_eq_false] at hv
        simp only [isValidObjectIdString, Bool.and_eq_true, decide_eq_true_eq] at hv
        exact hnot hv
      simp [newId, JsVal.truthy, hne, hvalid]

/-- Witness for C7 at a valid hex identifier and at the string zz. -/
theorem C7_newId_hex_witness :
    newId (.str "0123456789abcdef01234567") = .ok (.oid "0123456789abcdef01234567") ∧
    newId (.str "zz") = .error "Invalid ObjectId string" :=
  ⟨(C7_newId_hex "0123456789abcdef01234567").1 (by decide) (by decide),
   (C7_newId_hex "zz").2 (by decide)⟩

/-- C6: GetUserById rejects a malformed identifier with the
invalid-identifier error independently of the store, returns null for a
well-formed identifier with no matching document, and every document it
returns has no password field. -/
theorem C6_GetUserById_contract :
    (∀ id (store store' : List Doc), isValidObjectIdString id = false →
       GetUserById id store = .error "Invalid ObjectId format" ∧
       GetUserById id store = GetUserById id store') ∧
    (∀ id (store : List Doc), isValidObjectIdString id = true →
       (∀ d ∈ store, lookupField d "_id" ≠ some (.oid id)) →
       GetUserById id store = .ok none) ∧
    (∀ id (store : List Doc) d, GetUserById id store = .ok (some d) →
       lookupField d "password" = none) := by
  refine ⟨?_, ?_, ?_⟩
  · intro id store store' h
    constructor <;> simp [GetUserById, h]
  · intro id store h hnone
    simp only [GetUserById, h, Bool.not_true, Bool.false_eq_true, if_false]
    rw [List.find?_eq_none.mpr]
    · rfl
    · intro d hd
      simp only [decide_eq_true_eq]
      exact hnone d hd
  · intro id store d h
    by_cases hv : isValidObjectIdString id
    · simp only [GetUserById, hv, Bool.not_true, Bool.false_eq_true, if_false] at h
      have h' : (store.find? (fun d => lookupField d "_id" = some (.oid id))).map
          projectNoPassword = some d := by
        exact Except.ok.inj h
      rw [Option.map_eq_some'] at h'
      obtain ⟨d₀, _, hd₀⟩ := h'
      rw [← hd₀]
      exact lookupField_project_password d₀
    · simp only [GetUserById, hv] at h
      exact absurd h (by simp)

/-- Witness for C6: a malformed identifier, a well-formed identifier
absent from the store, and a stored document with a password field. -/
theorem C6_GetUserById_contract_witness :
    (GetUserById "xyz" [] = .error "Invalid ObjectId format" ∧
     GetUserById "xyz" [] = GetUserById "xyz" [[("email", Val.str "e")]]) ∧
    GetUserById "aaaaaaaaaaaaaaaaaaaaaaaa"
      [[("_id", Val.oid "bbbbbbbbbbbbbbbbbbbbbbbb")]] = .ok none ∧
    lookupField [("_id", Val.oid "cccccccccccccccccccccccc"), ("email", Val.str "e")]
      "password" = none :=
  ⟨C6_GetUserById_contract.1 "xyz" [] [[("email", Val.str "e")]] (by decide),
   C6_GetUserById_contract.2.1 "aaaaaaaaaaaaaaaaaaaaaaaa"
     [[("_id", Val.oid "bbbbbbbbbbbbbbbbbbbbbbbb")]] (by decide) (by decide),
   C6_GetUserById_contract.2.2 "cccccccccccccccccccccccc"
     [[("_id", Val.oid "cccccccccccccccccccccccc"), ("password", Val.str "p"),
       ("email", Val.str "e")]]
     [("_id", Val.oid "cccccccccccccccccccccccc"), ("email", Val.str "e")] (by rfl)⟩

/-- C9: the rest destructuring removes _id from the update payload, so
the $set never writes an _id field and every identifier in the store is
unchanged by a successful UpdateUser. -/
theorem C9_update_id_frame (updatedUser : Doc) :
    "_id" ∉ (updateFieldsOf updatedUser).map Prod.fst ∧
    ∀ (store store' : List Doc), UpdateUser store updatedUser = .ok store' →
      store'.map (fun d => lookupField d "_id") = store.map (fun d => lookupField d "_id") := by
  have hkeys : ∀ kv ∈ updateFieldsOf updatedUser, kv.1 ≠ "_id" := by
    intro kv hkv
    rw [updateFieldsOf, List.mem_filter] at hkv
    simpa using hkv.2
  constructor
  · intro hmem
    rw [List.mem_map] at hmem
    obtain ⟨kv, hkv, hfst⟩ := hmem
    exact hkeys kv hkv hfst
  · intro store store' h
    unfold UpdateUser at h
    cases hid : lookupField updatedUser "_id" with
    | none => rw [hid] at h; exact absurd h (by simp)
    | some v =>
        cases v with
        | str s =>
            rw [hid] at h
            by_cases hv : isValidObjectIdString s
            · simp only [hv, if_true] at h
              have h' := Except.ok.inj h
              rw [← h']
              exact updateFirst_map_eq _ _ _
                (fun d => lookupField_applySet_not_mem (updateFieldsOf updatedUser) "_id" hkeys d)
                store
            · simp only [hv, Bool.false_eq_true, if_false] at h
              exact absurd h (by simp)
        | num n => rw [hid] at h; exact absurd h (by simp)
        | oid s => rw [hid] at h; exact absurd h (by simp)

/-- Witness for C9 at a one-document store whose document the update
matches. -/
theorem C9_update_id_frame_witness :
    "_id" ∉ (updateFieldsOf
      [("_id", Val.str "aaaaaaaaaaaaaaaaaaaaaaaa"), ("givenName", Val.str "Al")]).map Prod.fst ∧
    ([[("_id", Val.oid "aaaaaaaaaaaaaaaaaaaaaaaa"), ("givenName", Val.str "Al")]].map
        (fun d => lookupField d "_id")) =
      ([[("_id", Val.oid "aaaaaaaaaaaaaaaaaaaaaaaa"), ("givenName", Val.str "Bo")]].map
        (fun d => lookupField d "_id")) :=
  ⟨(C9_update_id_frame
      [("_id", Val.str "aaaaaaaaaaaaaaaaaaaaaaaa"), ("givenName", Val.str "Al")]).1,
   (C9_update_id_frame
      [("_id", Val.str "aaaaaaaaaaaaaaaaaaaaaaaa"), ("givenName", Val.str "Al")]).2
     [[("_id", Val.oid "aaaaaaaaaaaaaaaaaaaaaaaa"), ("givenName", Val.str "Bo")]]
     [[("_id", Val.oid "aaaaaaaaaaaaaaaaaaaaaaaa"), ("givenName", Val.str "Al")]]
     (by rfl)⟩

/-- C4: for every matching set, GetAllUsers with pageSize 5 and
pageNumber 2 returns exactly the five documents after the first five
(so at most 5), counts the unpaginated matching set, and reports
totalPages as the ceiling of totalUsers over 5. -/
theorem C4_pagination_page2_size5 (matched : List Doc) :
    getAllUsersOn matched (.num 5) (.num 2) = .ok
      { users := (matched.drop 5).take 5
        totalUsers := matched.length
        totalPages := ((matched.length + 4) / 5 : Nat)
        pageNumber := 2
        pageSize := 5 } ∧
    ((matched.drop 5).take 5).length ≤ 5 := by
  constructor
  · have h1 : effPageNumber (.num 2) = 2 := rfl
    have h2 : effPageSize (.num 5) = 5 := rfl
    unfold getAllUsersOn
    rw [h1, h2]
    simp only [runSkipLimit, Except.map]
    norm_num
    refine ⟨rfl, ?_⟩
    rw [intCeilDiv_nat_five]
    omega
  · rw [List.length_take]
    exact min_le_left _ _

/-- C8: validBody strips fields not in the schema from the value the
handler sees; whenever any field violates the schema — a required
field absent or a present value failing its check — it responds 400
with an errors list holding one (message, path, type) entry for every
violating field, not only the first, with the path naming the field
and the required kind for a missing required field; and on success it
replaces the body with the sanitized, defaulted value. -/
theorem C8_validBody_contract (schema : Schema) (body : Doc) :
    (∀ b', validBody schema body = .next b' →
       (∀ kv ∈ b', schema.any (fun f => f.fname = kv.1) = true) ∧
       b' = applyDefaults schema (stripUnknown schema body)) ∧
    (∀ f ∈ schema, ∀ e, fieldViolation (stripUnknown schema body) f = some e →
       ∃ errs, validBody schema body = .respond400 errs ∧
         ∀ g ∈ schema, ∀ e', fieldViolation (stripUnknown schema body) g = some e' →
           e' ∈ errs) ∧
    (∀ f ∈ schema, f.required = true → lookupField body f.fname = none →
       ∃ errs, validBody schema body = .respond400 errs ∧
         ∀ g ∈ schema, g.required = true → lookupField body g.fname = none →
           ∃ e ∈ errs, e.path = [g.fname] ∧ e.type = "any.required") := by
  have hviolmem : ∀ g ∈ schema, ∀ e, fieldViolation (stripUnknown schema body) g = some e →
      e ∈ joiErrors schema (stripUnknown schema body) := by
    intro g hg e he
    exact List.mem_filterMap.mpr ⟨g, hg, he⟩
  have hreqviol : ∀ g ∈ schema, g.required = true → lookupField body g.fname = none →
      fieldViolation (stripUnknown schema body) g = some (requiredError g.fname) := by
    intro g hg hgreq hglook
    have hstr : lookupField (stripUnknown schema body) g.fname = none :=
      lookupField_filter_of_none body _ g.fname hglook
    unfold fieldViolation requiredError
    rw [hstr, if_pos hgreq]
  have hrespond : ∀ g ∈ schema, ∀ e, fieldViolation (stripUnknown schema body) g = some e →
      validBody schema body = .respond400
        ((joiErrors schema (stripUnknown schema body)).map (fun e =>
          { message := e.message, path := e.path, type := e.type })) := by
    intro g hg e he
    have hmem := hviolmem g hg e he
    have hne : (joiErrors schema (stripUnknown schema body)).isEmpty = false := by
      rcases Bool.eq_false_or_eq_true ((joiErrors schema (stripUnknown schema body)).isEmpty)
        with h | h
      · rw [List.isEmpty_iff] at h
        rw [h] at hmem
        exact absurd hmem (List.not_mem_nil _)
      · exact h
    simp [validBody, joiValidate, hne]
  refine ⟨?_, ?_, ?_⟩
  · intro b' h
    unfold validBody joiValidate at h
    by_cases he : (joiErrors schema (stripUnknown schema body)).isEmpty
    · rw [if_pos he] at h
      have hb : b' = applyDefaults schema (stripUnknown schema body) :=
        (MwResult.next.inj h).symm
      refine ⟨?_, hb⟩
      intro kv hkv
      rw [hb] at hkv
      unfold applyDefaults at hkv
      rcases List.mem_append.mp hkv with hl | hr
      · exact (List.mem_filter.mp hl).2
      · obtain ⟨f, hf, hfv⟩ := List.mem_filterMap.mp hr
        have hkv1 : kv.1 = f.fname := by
          cases hlk : lookupField (stripUnknown schema body) f.fname with
          | none =>
              cases hdf : f.fdefault with
              | none => rw [hlk, hdf] at hfv; exact absurd hfv (by simp)
              | some v =>
                  rw [hlk, hdf] at hfv
                  have := Option.some.inj hfv
                  rw [← this]
          | some v => rw [hlk] at hfv; exact absurd hfv (by simp)
        refine List.any_eq_true.mpr ⟨f, hf, ?_⟩
        simp [hkv1]
    · rw [if_neg he] at h
      exact absurd h (by simp)
  · intro f hf e he
    refine ⟨_, hrespond f hf e he, ?_⟩
    intro g hg e' he'
    exact List.mem_map.mpr ⟨e', hviolmem g hg e' he', rfl⟩
  · intro f hf hreq hlook
    refine ⟨_, hrespond f hf _ (hreqviol f hf hreq hlook), ?_⟩
    intro g hg hgreq hglook
    exact ⟨requiredError g.fname,
      List.mem_map.mpr ⟨_, hviolmem g hg _ (hreqviol g hg hgreq hglook), rfl⟩, rfl, rfl⟩

/-- Witness for C8: a body with only an unknown field against a schema
requiring an email yields a 400 whose errors name the email path; a
body whose email is present but fails the field check yields a 400
carrying the invalid-value entry; and a valid body passes through with
only schema fields. -/
theorem C8_validBody_contract_witness :
    (∃ errs, validBody emailOnlySchema [("junk", Val.str "x")] = .respond400 errs ∧
       ∃ e ∈ errs, e.path = ["email"] ∧ e.type = "any.required") ∧
    (∃ errs, validBody emailCheckedSchema [("email", Val.str "bad")] = .respond400 errs ∧
       invalidError "email" ∈ errs) ∧
    (∀ kv ∈ ([("email", Val.str "a@b.c")] : Doc),
       emailOnlySchema.any (fun f => f.fname = kv.1) = true) := by
  refine ⟨?_, ?_, ?_⟩
  · obtain ⟨errs, h1, h2⟩ :=
      (C8_validBody_contract emailOnlySchema [("junk", Val.str "x")]).2.2
        { fname := "email", required := true, fdefault := none, check := fun _ => true }
        (List.mem_singleton.mpr rfl) rfl rfl
    exact ⟨errs, h1, h2 _ (List.mem_singleton.mpr rfl) rfl rfl⟩
  · obtain ⟨errs, h1, h2⟩ :=
      (C8_validBody_contract emailCheckedSchema [("email", Val.str "bad")]).2.1
        { fname := "email", required := true, fdefault := none,
          check := fun v => v = Val.str "a@b.c" }
        (List.mem_singleton.mpr rfl) (invalidError "email") rfl
    exact ⟨errs, h1, h2 _ (List.mem_singleton.mpr rfl) (invalidError "email") rfl⟩
  · exact ((C8_validBody_contract emailOnlySchema [("email", Val.str "a@b.c")]).1
      [("email", Val.str "a@b.c")] rfl).1
